import Mathlib

/-!
Verification of the jxl-migrate-cli conversion pipeline (src/jxl-migrate-cli.py)
against its natural-language specification.

The Python source is shallowly embedded as executable Lean definitions:
  - string manipulation (`filename.split` on a dot, `lower`, `os.path.join`)
    is modelled over `List Char` / `String`;
  - the external subprocesses (`cjxl`, `dwebp`, `webpinfo`) are modelled by an
    oracle structure `ExtOracle` recording the exit code of each call and
    whether the expected output file was produced;
  - the filesystem is modelled as the list of existing paths, and all
    filesystem side effects (file creation, `os.remove`) plus the diagnostic
    log and the subprocess invocations are threaded through a state `St`;
  - Python exceptions (`FileNotFoundError` from `os.remove` / `os.path.getsize`
    on a missing path, `CalledProcessError` from `subprocess.check_output`)
    become an explicit `Exc` value returned next to the state.
-/

namespace JxlMigrate

/-! ### Python string primitives used by `handle_file` -/

/-- Model of the Python expression `s.split(".")` on the character list of `s`:
split on every dot, keeping empty pieces, and producing `[[]]` for the empty
string (Python returns `[""]` there). -/
def splitOnDot : List Char → List (List Char)
  | [] => [[]]
  | c :: cs =>
    match splitOnDot cs with
    | [] => [[]]
    | p :: ps => if c = '.' then [] :: p :: ps else (c :: p) :: ps

/-- Model of Python `".".join(parts)`: interleave a dot between the pieces. -/
def joinDot (ps : List (List Char)) : List Char :=
  (ps.intersperse ['.']).flatten

/-- Model of Python `s.lower()` (exact on ASCII, the only case exercised by
the extension table of the program). -/
def pyLower (s : String) : String := ⟨s.data.map Char.toLower⟩

/-- Line 91 of the source: `extension = filename.split(".")[-1].lower()`.
Python's `[-1]` is total here because `splitOnDot` never returns `[]`; the
default of `getLastD` is therefore never used. -/
def pyExtension (filename : String) : String :=
  pyLower ⟨(splitOnDot filename.data).getLastD []⟩

/-- Line 102 of the source:
`filename_without_extension = ".".join(filename.split(".")[:-1])`. -/
def pyBaseName (filename : String) : String :=
  ⟨joinDot ((splitOnDot filename.data).dropLast)⟩

/-- Model of `os.path.join(root, name)` for a root without a trailing
separator and a relative name, the shape produced by `os.walk`:
`os.path.join("d", "f") = "d/f"` and `os.path.join("d", "") = "d/"`. -/
def pathJoin (root name : String) : String := root ++ "/" ++ name

/-- Line 103 of the source:
`jxl_filename = os.path.join(root, filename_without_extension) + ".jxl"`. -/
def jxlTargetPath (root filename : String) : String :=
  pathJoin root (pyBaseName filename) ++ ".jxl"

/-- Line 98 of the source: the recognized input extensions. -/
def supportedExtensions : List String :=
  ["jpg", "jpeg", "gif", "png", "apng", "webp"]

/-! ### The size formatter (`format_file_size`, lines 148-152)

The Python function divides a float by `1024.0` until it drops below `1024`
or the five-entry unit list is exhausted; in the latter case the `for` loop
falls through and the function returns `None`.  We model the numeric value as
a rational.  The fractional rendering `f"{v:.3f}"` is modelled by truncating
`v * 1000` toward negative infinity, which agrees with Python exactly when
`v * 1000` is an integer — the case for every concrete value appearing in a
theorem below. -/

/-- Zero-pad a fractional part to three digits. -/
def pad3 (n : Nat) : String :=
  if n < 10 then "00" ++ toString n
  else if n < 100 then "0" ++ toString n
  else toString n

/-- Model of the Python rendering `f"{q:.3f}"` for a nonnegative rational. -/
def toFixed3 (q : ℚ) : String :=
  let n : ℤ := (q * 1000).floor
  toString (n / 1000) ++ "." ++ pad3 ((n % 1000).toNat)

/-- The loop body of `format_file_size`, recursing over the unit list. -/
def formatLoop : List String → ℚ → Option String
  | [], _ => none
  | u :: us, s => if s < 1024 then some (toFixed3 s ++ " " ++ u) else formatLoop us (s / 1024)

/-- Lines 148-152 of the source: `format_file_size`.  Returns `none` exactly
where the Python function falls off the end of the loop and returns `None`. -/
def format_file_size (size_in_bytes : ℚ) : Option String :=
  formatLoop ["Bytes", "KB", "MB", "GB", "TB"] size_in_bytes

/-! ### The per-file pipeline (`handle_file` and its helpers, lines 38-145)

External subprocesses are modelled by an oracle fixing, for the single file a
`handle_file` call processes, the outcome of each of the three possible
subprocess invocations and the two `os.path.getsize` calls. -/

/-- The run configuration built by `run` (lines 184-193), restricted to the
fields `handle_file` and `convert` read. -/
structure Config where
  delete : Bool
  lossyjpg : Bool
  lossywebp : Bool
  lossygif : Bool
  force_overwrite : Bool
  cjxl_extra_args : List String
deriving DecidableEq, Repr

/-- Oracle for the environment of one `handle_file` call: exit codes of the
external tools, whether each tool produced its expected output file, the text
marker reported by `webpinfo`, the two file sizes read with
`os.path.getsize`, and the name handed out by `tempfile.NamedTemporaryFile`. -/
structure ExtOracle where
  dwebpExit : Nat
  dwebpProduced : Bool
  webpinfoExit : Nat
  webpinfoLossless : Bool
  cjxlExit : Nat
  cjxlProduced : Bool
  sourceSize : Nat
  targetSize : Nat
  tempName : String
deriving DecidableEq, Repr

/-- Python exceptions the pipeline can raise: `FileNotFoundError` from
`os.remove`, `os.path.getsize` or `os.path.getmtime` on a missing path, and
`subprocess.CalledProcessError` from `check_output` on a nonzero exit. -/
inductive Exc where
  | fileNotFound : String → Exc
  | calledProcess : Exc
deriving DecidableEq, Repr

/-- Analog of Python `repr(inst)` as printed by `try_handle_file`. -/
def excRepr : Exc → String
  | .fileNotFound p => "FileNotFoundError(" ++ p ++ ")"
  | .calledProcess => "CalledProcessError"

/-- Observable actions of the pipeline: log lines printed through
`print_thread_safe`, the three subprocess invocations, and `os.remove`. -/
inductive Event where
  | log : String → Event
  | dwebpCall : String → String → Event
  | webpinfoCall : String → Event
  | cjxlCall : List String → Event
  | removed : String → Event
deriving DecidableEq, Repr

/-- Pipeline state: the filesystem as the list of existing paths, the two
global byte counters (lines 32-33), and the event log, most recent first. -/
structure St where
  fs : List String
  before : Nat
  after : Nat
  events : List Event
deriving DecidableEq, Repr

/-- Lines 47-64 of the source: `convert`.  Runs `cjxl p target -d {0,1} -j
{0,1} ++ extra`; on a nonzero exit or a missing output file it returns `none`;
otherwise it restores the timestamp (`os.path.getmtime p` raises if `p` is
missing), removes `p` when `remove` is set, and returns the target path. -/
def convert (o : ExtOracle) (extra : List String) (p target : String)
    (lossy remove losslessjpeg : Bool) (s : St) : St × Except Exc (Option String) :=
  let args := ["cjxl", p, target, "-d", if lossy then "1" else "0", "-j",
    if losslessjpeg then "1" else "0"] ++ extra
  let s1 : St := {s with events := Event.cjxlCall args :: s.events}
  let s2 : St := if o.cjxlProduced then {s1 with fs := target :: s1.fs} else s1
  if o.cjxlExit ≠ 0 ∨ target ∉ s2.fs then (s2, Except.ok none)
  else if p ∉ s2.fs then (s2, Except.error (Exc.fileNotFound p))
  else if remove then
    ({s2 with fs := s2.fs.erase p, events := Event.removed p :: s2.events},
      Except.ok (some target))
  else (s2, Except.ok (some target))

/-- Line 70 of the source: the notice printed before running `dwebp`. -/
def decodeMsg (webp tmp : String) : String :=
  "Converting " ++ webp ++ " to a temporary PNG " ++ tmp

/-- Lines 67-83 of the source: `convert_webp_to_temporary_png`.  Allocates a
temporary name, logs, runs `dwebp webp -o tmp`; returns `none` on a nonzero
exit or a missing output, else restores the timestamp (raising if the source
vanished) and returns the temporary path. -/
def convert_webp_to_temporary_png (o : ExtOracle) (webp : String) (s : St) :
    St × Except Exc (Option String) :=
  let tmp := o.tempName
  let s1 : St := {s with events := Event.log (decodeMsg webp tmp) :: s.events}
  let s2 : St := {s1 with events := Event.dwebpCall webp tmp :: s1.events}
  let s3 : St := if o.dwebpProduced then {s2 with fs := tmp :: s2.fs} else s2
  if o.dwebpExit ≠ 0 ∨ tmp ∉ s3.fs then (s3, Except.ok none)
  else if webp ∉ s3.fs then (s3, Except.error (Exc.fileNotFound webp))
  else (s3, Except.ok (some tmp))

/-- Lines 38-44 of the source: `is_webp_lossless`.  `check_output` raises
`CalledProcessError` when `webpinfo` exits nonzero; otherwise the result is
whether the output text contains the `Format: Lossless` marker. -/
def is_webp_lossless (o : ExtOracle) (p : String) (s : St) : St × Except Exc Bool :=
  let s1 : St := {s with events := Event.webpinfoCall p :: s.events}
  if o.webpinfoExit ≠ 0 then (s1, Except.error Exc.calledProcess)
  else (s1, Except.ok o.webpinfoLossless)

/-- Lines 137-138 of the source: the final cleanup of the decoded temporary.
`os.remove` raises `FileNotFoundError` when the path no longer exists. -/
def cleanup (decoded : Option String) (s : St) : St × Option Exc :=
  match decoded with
  | none => (s, none)
  | some d =>
    if d ∈ s.fs then
      ({s with fs := s.fs.erase d, events := Event.removed d :: s.events}, none)
    else (s, some (Exc.fileNotFound d))

/-- Line 106 of the source: the skip notice of the idempotency check. -/
def skipMsg (jxl filename : String) : String :=
  jxl ++ " already exists, skipping " ++ filename

/-- Lines 122-128 of the source: the notice printed before invoking `cjxl`. -/
def convMsg (path : String) (lossy : Bool) : String :=
  "Converting " ++ path ++ " to " ++ (if lossy then "a lossy" else "a lossless") ++ " JXL"

/-- Lines 122-138 of the source: the tail of `handle_file` common to every
supported format — the `Converting ...` notice, the `convert` invocation with
`remove := delete`, the statistics update on success (`before` first, then
`after`, mirroring the two Python statements), and the temporary cleanup. -/
def convertAndRecord (cfg : Config) (o : ExtOracle) (path jxl : String)
    (lossy losslessjpeg : Bool) (filesize : Nat) (decoded : Option String)
    (s : St) : St × Option Exc :=
  let s1 : St := {s with events := Event.log (convMsg path lossy) :: s.events}
  match convert o cfg.cjxl_extra_args path jxl lossy cfg.delete losslessjpeg s1 with
  | (s2, Except.error e) => (s2, some e)
  | (s2, Except.ok none) =>
    cleanup decoded {s2 with events := Event.log ("Conversion FAILED: " ++ path) :: s2.events}
  | (s2, Except.ok (some conv)) =>
    if conv ∈ s2.fs then
      cleanup decoded {s2 with before := s2.before + filesize, after := s2.after + o.targetSize}
    else
      ({s2 with before := s2.before + filesize}, some (Exc.fileNotFound conv))

/-- Lines 86-138 of the source: `handle_file`.  Faithful to the source order:
extension from the last dot-separated piece, `os.path.getsize` on the full
path (raising on a missing file) before the extension test, the unsupported
and already-converted early returns, the per-format classification, the WebP
decode detour with the reassignment of `fullpath` to the decoded temporary,
and the shared conversion tail. -/
def handle_file (cfg : Config) (o : ExtOracle) (filename root : String) (s0 : St) :
    St × Option Exc :=
  let extension := pyExtension filename
  let fullpath := pathJoin root filename
  if fullpath ∉ s0.fs then (s0, some (Exc.fileNotFound fullpath))
  else
    let filesize := o.sourceSize
    if extension ∉ supportedExtensions then
      if extension ≠ "jxl" then
        ({s0 with events := Event.log ("Not supported: " ++ fullpath) :: s0.events}, none)
      else (s0, none)
    else
      let jxl_filename := jxlTargetPath root filename
      if ¬ cfg.force_overwrite ∧ jxl_filename ∈ s0.fs then
        ({s0 with events := Event.log (skipMsg jxl_filename filename) :: s0.events}, none)
      else
        if extension = "jpg" ∨ extension = "jpeg" then
          convertAndRecord cfg o fullpath jxl_filename cfg.lossyjpg (!cfg.lossyjpg)
            filesize none s0
        else if extension = "gif" then
          convertAndRecord cfg o fullpath jxl_filename cfg.lossygif false filesize none s0
        else if extension = "webp" then
          match convert_webp_to_temporary_png o fullpath s0 with
          | (s1, Except.error e) => (s1, some e)
          | (s1, Except.ok none) => (s1, none)
          | (s1, Except.ok (some png)) =>
            if cfg.lossywebp then
              convertAndRecord cfg o png jxl_filename true false filesize (some png) s1
            else
              match is_webp_lossless o fullpath s1 with
              | (s2, Except.error e) => (s2, some e)
              | (s2, Except.ok b) =>
                convertAndRecord cfg o png jxl_filename (!b) false filesize (some png) s2
        else
          convertAndRecord cfg o fullpath jxl_filename false false filesize none s0

/-- Lines 141-145 of the source: `try_handle_file`, the task boundary.  Any
exception from `handle_file` is caught and logged with the file path. -/
def try_handle_file (cfg : Config) (o : ExtOracle) (filename root : String) (s0 : St) : St :=
  match handle_file cfg o filename root s0 with
  | (s, none) => s
  | (s, some e) =>
    let note := Event.log ("Error processing " ++ pathJoin root filename ++ ": " ++ excRepr e)
    {s with events := note :: s.events}

/-- The `cjxl` invocations recorded in an event log, oldest last. -/
def cjxlCallsOf (events : List Event) : List (List String) :=
  events.filterMap fun e =>
    match e with
    | Event.cjxlCall a => some a
    | _ => none

/-! ### The final report (`run`, lines 236-243)

Per-file outcomes feed the two global counters; only files whose conversion
succeeded contribute (lines 131-135).  The report branches on
`filesize_before_conversion == 0` (line 236). -/

/-- The per-file result consumed by the aggregation: whether `convert`
returned a path, and the two sizes read for the statistics update. -/
structure Outcome where
  success : Bool
  bytesBefore : Nat
  bytesAfter : Nat
deriving DecidableEq, Repr

/-- The value of `filesize_before_conversion` after a run over the given
outcomes: each successful conversion adds its source size (line 134). -/
def totalBefore (outs : List Outcome) : Nat :=
  outs.foldl (fun acc oc => if oc.success then acc + oc.bytesBefore else acc) 0

/-- The value of `filesize_after_conversion` after a run: each successful
conversion adds its target size (line 135). -/
def totalAfter (outs : List Outcome) : Nat :=
  outs.foldl (fun acc oc => if oc.success then acc + oc.bytesAfter else acc) 0

/-- What the tail of `run` prints: either the no-files message or the two
formatted totals with the reduction percentage. -/
inductive Report where
  | noFiles : Report
  | summary : Option String → Option String → ℚ → Report
deriving DecidableEq, Repr

/-- Lines 236-243 of the source: the final report.  The guard is
`filesize_before_conversion == 0`, and the reduction percentage is
`(1 - after / before) * 100`. -/
def finalReport (outs : List Outcome) : Report :=
  if totalBefore outs = 0 then Report.noFiles
  else
    Report.summary (format_file_size (totalBefore outs)) (format_file_size (totalAfter outs))
      ((1 - (totalAfter outs : ℚ) / (totalBefore outs : ℚ)) * 100)

/-- Number of successful conversions among the outcomes. -/
def successCount (outs : List Outcome) : Nat :=
  (outs.filter fun oc => oc.success).length

/-! ### Interleaving model of the statistics update (lines 134-135)

The two Python statements
  `filesize_before_conversion += filesize`
  `filesize_after_conversion += os.path.getsize(converted_filename)`
update module-level globals with no lock (the only semaphore in the program,
`print_lock`, guards `print` alone).  In CPython each augmented assignment
compiles to a read of the global, an addition, and a separate store, and the
interpreter may switch threads between any two of those bytecodes.  We model
one successful conversion per worker as four atomic micro-operations: read
`before` and add, store `before`, read `after` and add, store `after`. -/

/-- The two shared counters. -/
structure Globals where
  before : Nat
  after : Nat
deriving DecidableEq, Repr

/-- One worker recording a successful conversion of sizes `b → a`: its
program counter over the four micro-operations and its temporary register. -/
structure Worker where
  b : Nat
  a : Nat
  reg : Nat
  pc : Nat
deriving DecidableEq, Repr

/-- One micro-operation of the statistics update. -/
def microStep (g : Globals) (w : Worker) : Globals × Worker :=
  match w.pc with
  | 0 => (g, {w with reg := g.before + w.b, pc := 1})
  | 1 => ({g with before := w.reg}, {w with pc := 2})
  | 2 => (g, {w with reg := g.after + w.a, pc := 3})
  | 3 => ({g with after := w.reg}, {w with pc := 4})
  | _ => (g, w)

/-- Run two workers under a schedule: `true` steps the first worker, `false`
the second. -/
def exec (sched : List Bool) (g : Globals) (w1 w2 : Worker) : Globals × Worker × Worker :=
  match sched with
  | [] => (g, w1, w2)
  | pick :: rest =>
    if pick then
      let gw := microStep g w1
      exec rest gw.1 gw.2 w2
    else
      let gw := microStep g w2
      exec rest gw.1 w1 gw.2

/-- Derived state: the pipeline state right after a successful `dwebp` decode
of `fullpath` (the temporary exists, decode notice and call recorded). -/
def afterDecodeSt (o : ExtOracle) (fullpath : String) (s0 : St) : St :=
  { fs := o.tempName :: s0.fs, before := s0.before, after := s0.after,
    events := Event.dwebpCall fullpath o.tempName :: Event.log (decodeMsg fullpath o.tempName) :: s0.events }

/-- Derived state: `afterDecodeSt` followed by the `webpinfo` inspection. -/
def afterInfoSt (o : ExtOracle) (fullpath : String) (s0 : St) : St :=
  { afterDecodeSt o fullpath s0 with
    events := Event.webpinfoCall fullpath :: (afterDecodeSt o fullpath s0).events }

/-! ### Supporting lemmas -/

theorem splitOnDot_ne_nil (l : List Char) : splitOnDot l ≠ [] := by
  cases l with
  | nil => simp [splitOnDot]
  | cons c cs =>
    simp only [splitOnDot]
    rcases h : splitOnDot cs with _ | ⟨p, ps⟩
    · simp
    · by_cases hc : c = '.' <;> simp [hc]

theorem splitOnDot_no_dot {l : List Char} (h : '.' ∉ l) : splitOnDot l = [l] := by
  induction l with
  | nil => rfl
  | cons c cs ih =>
    have hc : c ≠ '.' := fun hc => h (hc ▸ List.mem_cons_self c cs)
    have hcs : '.' ∉ cs := fun hm => h (List.mem_cons_of_mem c hm)
    simp [splitOnDot, ih hcs, hc]

theorem formatLoop_lt (u : String) (us : List String) (s : ℚ) (h : s < 1024) :
    formatLoop (u :: us) s = some (toFixed3 s ++ " " ++ u) := by
  simp [formatLoop, h]

theorem formatLoop_step (u : String) (us : List String) (s : ℚ) (h : ¬ s < 1024) :
    formatLoop (u :: us) s = formatLoop us (s / 1024) := by
  simp [formatLoop, h]

theorem formatLoop_isSome (us : List String) :
    us ≠ [] → ∀ s : ℚ, 0 ≤ s → s < 1024 ^ us.length → (formatLoop us s).isSome = true := by
  induction us with
  | nil => intro h; exact absurd rfl h
  | cons u us ih =>
    intro _ s hs hlt
    by_cases h : s < 1024
    · rw [formatLoop_lt u us s h]; rfl
    · have h1024 : (0 : ℚ) < 1024 := by norm_num
      have hlen : (1024 : ℚ) ^ (u :: us).length = 1024 ^ us.length * 1024 := by
        rw [List.length_cons, pow_succ]
      cases us with
      | nil =>
        exact absurd (by simpa using hlt) h
      | cons v vs =>
        have hdiv : s / 1024 < 1024 ^ (v :: vs).length := by
          rw [div_lt_iff₀ h1024]
          exact lt_of_lt_of_le hlt (le_of_eq hlen)
        have hnn : 0 ≤ s / 1024 := div_nonneg hs (le_of_lt h1024)
        rw [formatLoop_step u (v :: vs) s h]
        exact ih (by simp) (s / 1024) hnn hdiv

theorem formatLoop_none (us : List String) :
    ∀ s : ℚ, (1024 : ℚ) ^ us.length ≤ s → formatLoop us s = none := by
  induction us with
  | nil => intro s _; rfl
  | cons u us ih =>
    intro s hle
    have h1024 : (0 : ℚ) < 1024 := by norm_num
    have hlen : (1024 : ℚ) ^ (u :: us).length = 1024 ^ us.length * 1024 := by
      rw [List.length_cons, pow_succ]
    have hbig : (1024 : ℚ) ≤ 1024 ^ (u :: us).length := by
      rw [List.length_cons]
      calc (1024 : ℚ) = 1024 ^ 1 := (pow_one _).symm
      _ ≤ 1024 ^ (us.length + 1) :=
        pow_le_pow_right₀ (by norm_num) (Nat.succ_le_succ (Nat.zero_le _))
    have hnot : ¬ s < 1024 := not_lt.mpr (le_trans hbig hle)
    have hdiv : (1024 : ℚ) ^ us.length ≤ s / 1024 := by
      rw [le_div_iff₀ h1024]
      exact le_trans (le_of_eq hlen.symm) hle
    rw [formatLoop_step u us s hnot]
    exact ih (s / 1024) hdiv

@[simp]
theorem cjxlCallsOf_nil : cjxlCallsOf [] = [] := rfl

@[simp]
theorem cjxlCallsOf_log (m : String) (es : List Event) :
    cjxlCallsOf (Event.log m :: es) = cjxlCallsOf es := rfl

@[simp]
theorem cjxlCallsOf_dwebp (a b : String) (es : List Event) :
    cjxlCallsOf (Event.dwebpCall a b :: es) = cjxlCallsOf es := rfl

@[simp]
theorem cjxlCallsOf_webpinfo (a : String) (es : List Event) :
    cjxlCallsOf (Event.webpinfoCall a :: es) = cjxlCallsOf es := rfl

@[simp]
theorem cjxlCallsOf_removed (a : String) (es : List Event) :
    cjxlCallsOf (Event.removed a :: es) = cjxlCallsOf es := rfl

@[simp]
theorem cjxlCallsOf_cjxl (a : List String) (es : List Event) :
    cjxlCallsOf (Event.cjxlCall a :: es) = a :: cjxlCallsOf es := rfl

/-- A successful `dwebp` decode: the temporary is created and returned. -/
theorem decode_success (o : ExtOracle) (webp : String) (s : St)
    (hdec : o.dwebpExit = 0) (hprod : o.dwebpProduced = true) (hw : webp ∈ s.fs) :
    convert_webp_to_temporary_png o webp s =
      ({ fs := o.tempName :: s.fs, before := s.before, after := s.after,
         events := Event.dwebpCall webp o.tempName :: Event.log (decodeMsg webp o.tempName) :: s.events },
        Except.ok (some o.tempName)) := by
  simp [convert_webp_to_temporary_png, hdec, hprod, hw]

/-- The conversion tail records exactly one `cjxl` invocation, carrying the
distance flag chosen from `lossy` and the `-j` flag from `losslessjpeg`. -/
theorem cjxlCallsOf_convert (o : ExtOracle) (extra : List String) (p target : String)
    (lossy remove lj : Bool) (s : St) :
    cjxlCallsOf (convert o extra p target lossy remove lj s).1.events =
      (["cjxl", p, target, "-d", if lossy then "1" else "0", "-j",
        if lj then "1" else "0"] ++ extra) :: cjxlCallsOf s.events := by
  simp only [convert]
  split_ifs <;> simp

theorem cjxlCallsOf_cleanup (decoded : Option String) (s : St) :
    cjxlCallsOf (cleanup decoded s).1.events = cjxlCallsOf s.events := by
  cases decoded with
  | none => rfl
  | some d =>
    simp only [cleanup]
    split_ifs <;> simp

theorem cjxlCallsOf_convertAndRecord (cfg : Config) (o : ExtOracle) (path jxl : String)
    (lossy lj : Bool) (size : Nat) (decoded : Option String) (s : St) :
    cjxlCallsOf (convertAndRecord cfg o path jxl lossy lj size decoded s).1.events =
      (["cjxl", path, jxl, "-d", if lossy then "1" else "0", "-j",
        if lj then "1" else "0"] ++ cfg.cjxl_extra_args) :: cjxlCallsOf s.events := by
  simp only [convertAndRecord]
  rcases hconv : convert o cfg.cjxl_extra_args path jxl lossy cfg.delete lj
      {s with events := Event.log (convMsg path lossy) :: s.events} with ⟨s2, r⟩
  have h2 : cjxlCallsOf s2.events =
      (["cjxl", path, jxl, "-d", if lossy then "1" else "0", "-j",
        if lj then "1" else "0"] ++ cfg.cjxl_extra_args) :: cjxlCallsOf s.events := by
    have := cjxlCallsOf_convert o cfg.cjxl_extra_args path jxl lossy cfg.delete lj
      {s with events := Event.log (convMsg path lossy) :: s.events}
    rw [hconv] at this
    simpa using this
  cases r with
  | error e => simpa using h2
  | ok res =>
    cases res with
    | none => simpa [cjxlCallsOf_cleanup] using h2
    | some conv =>
      by_cases hm : conv ∈ s2.fs <;> simp [hm, cjxlCallsOf_cleanup, h2]

/-- If the decoded temporary occurs exactly once in the filesystem and is
distinct from the conversion target, the conversion tail always ends with the
temporary removed: either `convert` itself deletes it (`delete` mode, after
which the cleanup raises on the already-missing path) or the cleanup does. -/
theorem convertAndRecord_removes_temp (cfg : Config) (o : ExtOracle) (path jxl : String)
    (lossy lj : Bool) (size : Nat) (s : St)
    (hcnt : s.fs.count path = 1) (hne : path ≠ jxl) :
    path ∉ (convertAndRecord cfg o path jxl lossy lj size (some path) s).1.fs := by
  have hmem : path ∈ s.fs := List.count_pos_iff.mp (by omega)
  have hcons : (jxl :: s.fs).count path = 1 := by
    rw [List.count_cons_of_ne hne]; exact hcnt
  have herase : path ∉ s.fs.erase path := by
    rw [← List.count_eq_zero, List.count_erase_self, hcnt]
  have herase2 : path ∉ (jxl :: s.fs).erase path := by
    rw [← List.count_eq_zero, List.count_erase_self, hcons]
  simp only [convertAndRecord, convert, cleanup]
  split_ifs <;> (try simp_all)
  all_goals (split <;> simp_all)

/-- Routing of `handle_file` for a WebP input that is not skipped and whose
decode succeeds: the pipeline continues with the decoded temporary as the
conversion source, choosing the lossy flag from `lossywebp` or the
`webpinfo` inspection, whose failure aborts the task with an exception. -/
theorem handle_file_webp (cfg : Config) (o : ExtOracle) (filename root : String) (s0 : St)
    (hext : pyExtension filename = "webp")
    (hsrc : pathJoin root filename ∈ s0.fs)
    (hskip : cfg.force_overwrite = true ∨ jxlTargetPath root filename ∉ s0.fs)
    (hdec : o.dwebpExit = 0) (hprod : o.dwebpProduced = true) :
    handle_file cfg o filename root s0 =
      (if cfg.lossywebp then
        convertAndRecord cfg o o.tempName (jxlTargetPath root filename) true false
          o.sourceSize (some o.tempName) (afterDecodeSt o (pathJoin root filename) s0)
      else if o.webpinfoExit = 0 then
        convertAndRecord cfg o o.tempName (jxlTargetPath root filename) (!o.webpinfoLossless) false
          o.sourceSize (some o.tempName) (afterInfoSt o (pathJoin root filename) s0)
      else (afterInfoSt o (pathJoin root filename) s0, some Exc.calledProcess)) := by
  have hskip2 : ¬(¬ cfg.force_overwrite = true ∧ jxlTargetPath root filename ∈ s0.fs) := by
    rcases hskip with h | h
    · intro hc; exact hc.1 (by simp [h])
    · intro hc; exact h hc.2
  simp only [handle_file, hext]
  rw [if_neg (not_not_intro hsrc)]
  rw [if_neg (not_not_intro (by decide : ("webp" : String) ∈ supportedExtensions))]
  rw [if_neg hskip2]
  rw [if_neg (by decide : ¬(("webp" : String) = "jpg" ∨ ("webp" : String) = "jpeg"))]
  rw [if_neg (by decide : ¬ ("webp" : String) = "gif")]
  rw [if_pos trivial]
  rw [decode_success o (pathJoin root filename) s0 hdec hprod hsrc]
  by_cases hl : cfg.lossywebp
  · simp [hl, afterDecodeSt]
  · by_cases hw : o.webpinfoExit = 0 <;>
      simp [hl, hw, is_webp_lossless, afterDecodeSt, afterInfoSt]

theorem foldl_add_if (f : Outcome → Nat) :
    ∀ (l : List Outcome) (acc : Nat),
      l.foldl (fun a oc => if oc.success then a + f oc else a) acc =
        acc + ((l.filter fun oc => oc.success).map f).sum := by
  intro l
  induction l with
  | nil => intro acc; simp
  | cons x xs ih =>
    intro acc
    by_cases h : x.success
    · simp [h, ih]; omega
    · simp [h, ih]

/-- The `before` accumulator sums the source sizes of exactly the successful
conversions. -/
theorem totalBefore_eq_sum (outs : List Outcome) :
    totalBefore outs = ((outs.filter fun oc => oc.success).map fun oc => oc.bytesBefore).sum := by
  simpa using foldl_add_if (fun oc => oc.bytesBefore) outs 0

/-- The `after` accumulator sums the target sizes of exactly the successful
conversions. -/
theorem totalAfter_eq_sum (outs : List Outcome) :
    totalAfter outs = ((outs.filter fun oc => oc.success).map fun oc => oc.bytesAfter).sum := by
  simpa using foldl_add_if (fun oc => oc.bytesAfter) outs 0

/-- Contract of the `cjxl` adapter: given an existing source, it never raises
and returns the target path exactly when the exit code is zero and the target
exists after the subprocess ran. -/
theorem convert_contract (o : ExtOracle) (extra : List String) (p target : String)
    (lossy remove lj : Bool) (s : St) (hp : p ∈ s.fs) :
    (convert o extra p target lossy remove lj s).2 =
      Except.ok (if o.cjxlExit = 0 ∧ target ∈ (if o.cjxlProduced then target :: s.fs else s.fs)
        then some target else none) := by
  simp only [convert]
  split_ifs <;> simp_all

/-- Contract of the `dwebp` adapter: given an existing source, it never
raises and returns the temporary path exactly when the exit code is zero and
the temporary exists after the subprocess ran. -/
theorem decode_contract (o : ExtOracle) (webp : String) (t : St) (hw : webp ∈ t.fs) :
    (convert_webp_to_temporary_png o webp t).2 =
      Except.ok (if o.dwebpExit = 0 ∧
          o.tempName ∈ (if o.dwebpProduced then o.tempName :: t.fs else t.fs)
        then some o.tempName else none) := by
  simp only [convert_webp_to_temporary_png]
  split_ifs <;> simp_all

/-- The Batteries floor on `ℚ` agrees with the Mathlib floor. -/
theorem ratFloor_eq_intFloor (q : ℚ) : q.floor = ⌊q⌋ := by
  rw [Rat.floor_def', Rat.floor_def]

/-- Rendering an integer-valued rational with three decimals. -/
theorem toFixed3_natCast (n : ℕ) : toFixed3 (n : ℚ) = toString (n : ℤ) ++ "." ++ pad3 0 := by
  simp only [toFixed3]
  have h1 : ((n : ℚ) * 1000).floor = (n : ℤ) * 1000 := by
    rw [ratFloor_eq_intFloor]
    have h : ((n : ℚ) * 1000) = (((n : ℤ) * 1000 : ℤ) : ℚ) := by push_cast; ring
    rw [h, Int.floor_intCast]
  rw [h1]
  have h2 : ((n : ℤ) * 1000) / 1000 = (n : ℤ) := by omega
  have h3 : ((n : ℤ) * 1000) % 1000 = 0 := by omega
  rw [h2, h3]
  rfl

/-! ### The claims -/

/-- C1: the claim says that for a WebP decoded to a temporary intermediate
and converted with delete-originals enabled, the convert step's delete action
removes the original WebP source, the intermediate being removed separately
by the cleanup.  The code does the opposite: line 121 reassigns `fullpath` to
the decoded temporary before `convert(fullpath, ..., remove=delete, ...)` is
called, so `convert` deletes the temporary PNG, the original `.webp` survives
the run, and the cleanup then raises `FileNotFoundError` on the
already-deleted temporary.  This theorem evaluates the pipeline at such an
input: decode, inspection and conversion all succeed with `delete` set; the
final state keeps `/d/a.webp`, records the removal of the temporary (only),
and ends in the `FileNotFoundError` from the double removal. -/
theorem c1_delete_removes_temporary_not_original :
    pathJoin "/d" "a.webp" ∈
      (handle_file ⟨true, false, false, false, false, []⟩
        ⟨0, true, 0, true, 0, true, 100, 50, "/tmp/t.png"⟩ "a.webp" "/d"
        ⟨["/d/a.webp"], 0, 0, []⟩).1.fs ∧
    Event.removed "/tmp/t.png" ∈
      (handle_file ⟨true, false, false, false, false, []⟩
        ⟨0, true, 0, true, 0, true, 100, 50, "/tmp/t.png"⟩ "a.webp" "/d"
        ⟨["/d/a.webp"], 0, 0, []⟩).1.events ∧
    Event.removed (pathJoin "/d" "a.webp") ∉
      (handle_file ⟨true, false, false, false, false, []⟩
        ⟨0, true, 0, true, 0, true, 100, 50, "/tmp/t.png"⟩ "a.webp" "/d"
        ⟨["/d/a.webp"], 0, 0, []⟩).1.events ∧
    (handle_file ⟨true, false, false, false, false, []⟩
        ⟨0, true, 0, true, 0, true, 100, 50, "/tmp/t.png"⟩ "a.webp" "/d"
        ⟨["/d/a.webp"], 0, 0, []⟩).2 =
      some (Exc.fileNotFound "/tmp/t.png") := by
  decide

/-- C2: for a supported input whose target `.jxl` already exists and with
force-overwrite off, `handle_file` logs the skip notice and returns at once:
the final state differs from the initial state only by that one log line, so
no decode, no encoder invocation and no statistics update happen — in
particular for WebP inputs, since the check at lines 104-107 precedes the
decode at line 114. -/
theorem c2_skip_before_decode_and_convert (cfg : Config) (o : ExtOracle)
    (filename root : String) (s0 : St)
    (hforce : cfg.force_overwrite = false)
    (hsup : pyExtension filename ∈ supportedExtensions)
    (hsrc : pathJoin root filename ∈ s0.fs)
    (htgt : jxlTargetPath root filename ∈ s0.fs) :
    handle_file cfg o filename root s0 =
      ({s0 with events := Event.log (skipMsg (jxlTargetPath root filename) filename) :: s0.events},
        none) := by
  simp only [handle_file]
  rw [if_neg (not_not_intro hsrc), if_neg (not_not_intro hsup),
    if_pos ⟨by simp [hforce], htgt⟩]

/-- C2 witness: a WebP file whose target already exists is skipped with no
decode and no conversion. -/
theorem c2_skip_witness :
    (⟨false, false, false, false, false, []⟩ : Config).force_overwrite = false ∧
    pyExtension "b.webp" ∈ supportedExtensions ∧
    pathJoin "/d" "b.webp" ∈ (⟨["/d/b.webp", "/d/b.jxl"], 0, 0, []⟩ : St).fs ∧
    jxlTargetPath "/d" "b.webp" ∈ (⟨["/d/b.webp", "/d/b.jxl"], 0, 0, []⟩ : St).fs ∧
    handle_file ⟨false, false, false, false, false, []⟩ ⟨0, false, 0, false, 0, false, 7, 9, "/t"⟩
        "b.webp" "/d" ⟨["/d/b.webp", "/d/b.jxl"], 0, 0, []⟩ =
      ({(⟨["/d/b.webp", "/d/b.jxl"], 0, 0, []⟩ : St) with
          events := Event.log (skipMsg (jxlTargetPath "/d" "b.webp") "b.webp") ::
            (⟨["/d/b.webp", "/d/b.jxl"], 0, 0, []⟩ : St).events}, none) :=
  ⟨rfl, by decide, by decide, by decide,
    c2_skip_before_decode_and_convert _ _ _ _ _ rfl (by decide) (by decide) (by decide)⟩

/-- C5 counterexample: the claim says every nonnegative byte count yields a
formatted string, with inputs of at least `1024 ^ 5` rendered in `TB`; but
for such inputs the Python `for` loop exhausts the unit list without
returning, so the function returns `None`. -/
theorem c5_formatter_counterexample : format_file_size ((1024 : ℚ) ^ 5) = none := by
  apply formatLoop_none
  norm_num

/-- C5 amended: the formatter repeatedly divides by 1024; every nonnegative
input below `1024 ^ 5` yields a formatted string, but any input of at least
`1024 ^ 5` exhausts the five units and yields no string (Python `None`);
500 formats as `500.000 Bytes` and 2048 as `2.000 KB`. -/
theorem c5_format_file_size_range (q : ℚ) (hq : 0 ≤ q) :
    (q < 1024 ^ 5 → (format_file_size q).isSome = true) ∧
    (1024 ^ 5 ≤ q → format_file_size q = none) ∧
    format_file_size 500 = some "500.000 Bytes" ∧
    format_file_size 2048 = some "2.000 KB" := by
  refine ⟨?_, ?_, ?_, ?_⟩
  · intro h
    exact formatLoop_isSome _ (by simp) q hq (by simpa using h)
  · intro h
    exact formatLoop_none _ q (by simpa using h)
  · rw [format_file_size, formatLoop_lt _ _ _ (by norm_num)]
    have h : (500 : ℚ) = ((500 : ℕ) : ℚ) := by norm_num
    rw [h, toFixed3_natCast]
    decide
  · rw [format_file_size, formatLoop_step _ _ _ (by norm_num)]
    have hq2 : (2048 : ℚ) / 1024 = ((2 : ℕ) : ℚ) := by norm_num
    rw [hq2, formatLoop_lt _ _ _ (by norm_num), toFixed3_natCast]
    decide

/-- C5 witness: the amended statement applied at 500 bytes. -/
theorem c5_format_witness :
    (0 : ℚ) ≤ 500 ∧ (500 : ℚ) < 1024 ^ 5 ∧ (format_file_size 500).isSome = true :=
  ⟨by norm_num, by norm_num, (c5_format_file_size_range 500 (by norm_num)).1 (by norm_num)⟩

/-- C6 counterexample: the claim says the no-files message appears if and
only if zero successful conversions occurred; but the code tests
`filesize_before_conversion == 0` (line 236), so one successful conversion
of a zero-byte source still prints the no-files message. -/
theorem c6_report_counterexample :
    finalReport [⟨true, 0, 5⟩] = Report.noFiles ∧ successCount [⟨true, 0, 5⟩] = 1 := by
  decide

/-- C6 amended: the totals sum over exactly the successful conversions, and
the final report prints the no-files message if and only if the sum of
bytes-before over successful conversions is zero (implied by, but not
equivalent to, zero successes); otherwise it prints the two formatted totals
and the reduction percentage `(1 - after / before) * 100`. -/
theorem c6_final_report (outs : List Outcome) :
    totalBefore outs = ((outs.filter fun oc => oc.success).map fun oc => oc.bytesBefore).sum ∧
    totalAfter outs = ((outs.filter fun oc => oc.success).map fun oc => oc.bytesAfter).sum ∧
    (finalReport outs = Report.noFiles ↔ totalBefore outs = 0) ∧
    (totalBefore outs ≠ 0 → finalReport outs =
      Report.summary (format_file_size (totalBefore outs)) (format_file_size (totalAfter outs))
        ((1 - (totalAfter outs : ℚ) / (totalBefore outs : ℚ)) * 100)) := by
  refine ⟨totalBefore_eq_sum outs, totalAfter_eq_sum outs, ?_, ?_⟩
  · by_cases h : totalBefore outs = 0 <;> simp [finalReport, h]
  · intro h
    simp [finalReport, h]

/-- C6 witness: one successful conversion of 1000 bytes down to 400 bytes
produces the summary report with a 60 percent reduction. -/
theorem c6_report_witness :
    totalBefore [⟨true, 1000, 400⟩] ≠ 0 ∧
    finalReport [⟨true, 1000, 400⟩] =
      Report.summary (format_file_size (totalBefore [⟨true, 1000, 400⟩]))
        (format_file_size (totalAfter [⟨true, 1000, 400⟩]))
        ((1 - (totalAfter [⟨true, 1000, 400⟩] : ℚ) / (totalBefore [⟨true, 1000, 400⟩] : ℚ)) * 100) :=
  ⟨by decide, (c6_final_report [⟨true, 1000, 400⟩]).2.2.2 (by decide)⟩

/-- C9 counterexample: the claim says each successful conversion updates the
two shared counters atomically inside one critical section, so the counters
never reflect different numbers of completed conversions.  The code performs
two separate unsynchronized read-modify-write updates on module globals
(lines 134-135; the only semaphore guards `print`).  Under the interleaving
below, two workers each record a conversion of 10 bytes before and 5 after;
both complete (`pc = 4`), yet the final `before` counter holds 10 — one
worker's update was lost — while `after` holds the full 10, i.e. `before`
reflects one completed conversion and `after` two. -/
theorem c9_race_counterexample :
    exec [true, false, true, false, true, true, false, false] ⟨0, 0⟩ ⟨10, 5, 0, 0⟩ ⟨10, 5, 0, 0⟩ =
      (⟨10, 10⟩, ⟨10, 5, 5, 4⟩, ⟨10, 5, 10, 4⟩) ∧
    (exec [true, false, true, false, true, true, false, false]
        ⟨0, 0⟩ ⟨10, 5, 0, 0⟩ ⟨10, 5, 0, 0⟩).1.before ≠ totalBefore [⟨true, 10, 5⟩, ⟨true, 10, 5⟩] ∧
    (exec [true, false, true, false, true, true, false, false]
        ⟨0, 0⟩ ⟨10, 5, 0, 0⟩ ⟨10, 5, 0, 0⟩).1.after = totalAfter [⟨true, 10, 5⟩, ⟨true, 10, 5⟩] := by
  decide

/-- C9 amended: each counter update is a separate unsynchronized
read-modify-write on a global.  When the two updates of each worker run
without interleaving the totals match the per-file sums, but there exists an
interleaving of two completed workers under which a `before` update is lost
while both `after` updates land, leaving the counters reflecting different
numbers of completed conversions. -/
theorem c9_unsynchronized_counters :
    (exec [true, true, true, true, false, false, false, false]
        ⟨0, 0⟩ ⟨10, 5, 0, 0⟩ ⟨10, 5, 0, 0⟩).1 =
      ⟨totalBefore [⟨true, 10, 5⟩, ⟨true, 10, 5⟩], totalAfter [⟨true, 10, 5⟩, ⟨true, 10, 5⟩]⟩ ∧
    ∃ sched : List Bool,
      (exec sched ⟨0, 0⟩ ⟨10, 5, 0, 0⟩ ⟨10, 5, 0, 0⟩).2.1.pc = 4 ∧
      (exec sched ⟨0, 0⟩ ⟨10, 5, 0, 0⟩ ⟨10, 5, 0, 0⟩).2.2.pc = 4 ∧
      (exec sched ⟨0, 0⟩ ⟨10, 5, 0, 0⟩ ⟨10, 5, 0, 0⟩).1.before ≠
        totalBefore [⟨true, 10, 5⟩, ⟨true, 10, 5⟩] ∧
      (exec sched ⟨0, 0⟩ ⟨10, 5, 0, 0⟩ ⟨10, 5, 0, 0⟩).1.after =
        totalAfter [⟨true, 10, 5⟩, ⟨true, 10, 5⟩] :=
  ⟨by decide, [true, false, true, false, true, true, false, false], by decide⟩

/-- C10: a filename with no dot is its own extension after lowercasing (so a
file literally named `png` is classified as a PNG), its computed base name is
empty, and the target path is the directory joined with the empty name plus
`.jxl` — the same hidden `.jxl` entry for every dotless file of the
directory. -/
theorem c10_dotless_filename (root fn : String) (h : '.' ∉ fn.data) :
    pyExtension fn = pyLower fn ∧
    pyBaseName fn = "" ∧
    jxlTargetPath root fn = pathJoin root "" ++ ".jxl" ∧
    pyExtension "png" = "png" ∧ ("png" : String) ∈ supportedExtensions := by
  have hs := splitOnDot_no_dot h
  have hbase : pyBaseName fn = "" := by
    simp [pyBaseName, hs, joinDot]
  refine ⟨?_, hbase, ?_, by decide, by decide⟩
  · simp [pyExtension, hs, pyLower]
  · rw [jxlTargetPath, hbase]

/-- C3: for a WebP input that passes the idempotency check and whose decode
succeeds (and whose inspection, when consulted, does not raise), exactly one
`cjxl` invocation is recorded, and its distance flag is `1` precisely when
`lossywebp` is set or the inspection reported the source not lossless —
otherwise `0`. -/
theorem c3_webp_distance_flag (cfg : Config) (o : ExtOracle) (filename root : String) (s0 : St)
    (hext : pyExtension filename = "webp")
    (hsrc : pathJoin root filename ∈ s0.fs)
    (hskip : cfg.force_overwrite = true ∨ jxlTargetPath root filename ∉ s0.fs)
    (hdec : o.dwebpExit = 0) (hprod : o.dwebpProduced = true)
    (hinfo : cfg.lossywebp = true ∨ o.webpinfoExit = 0)
    (hev : s0.events = []) :
    cjxlCallsOf (handle_file cfg o filename root s0).1.events =
      [["cjxl", o.tempName, jxlTargetPath root filename, "-d",
        if cfg.lossywebp || !o.webpinfoLossless then "1" else "0", "-j", "0"] ++
        cfg.cjxl_extra_args] := by
  rw [handle_file_webp cfg o filename root s0 hext hsrc hskip hdec hprod]
  by_cases hl : cfg.lossywebp
  · rw [if_pos hl, cjxlCallsOf_convertAndRecord]
    simp [afterDecodeSt, hev, hl]
  · have hw : o.webpinfoExit = 0 := by
      rcases hinfo with h | h
      · exact absurd h hl
      · exact h
    rw [if_neg hl, if_pos hw, cjxlCallsOf_convertAndRecord]
    simp [afterInfoSt, afterDecodeSt, hev, hl]

/-- C3 witness: a lossless WebP source with `lossywebp` off is converted
with distance flag `0`. -/
theorem c3_webp_flag_witness :
    cjxlCallsOf (handle_file ⟨false, false, false, false, false, []⟩
        ⟨0, true, 0, true, 0, true, 100, 50, "/tmp/c3.png"⟩ "e.webp" "/d"
        ⟨["/d/e.webp"], 0, 0, []⟩).1.events =
      [["cjxl", "/tmp/c3.png", jxlTargetPath "/d" "e.webp", "-d",
        if (false || !true : Bool) then "1" else "0", "-j", "0"] ++ []] :=
  c3_webp_distance_flag _ _ _ _ _ (by decide) (by decide) (Or.inr (by decide)) rfl rfl
    (Or.inr rfl) rfl

/-- C4 counterexample: the claim says the temporary intermediate is deleted
on every exit path of the remainder of the pipeline, so temporary artifacts
never leak.  But between the decode (line 114) and the cleanup (lines
137-138) the pipeline calls `is_webp_lossless`, whose `check_output` raises
`CalledProcessError` when `webpinfo` exits nonzero; the exception escapes to
the task boundary without the cleanup running, and the temporary PNG is left
on disk. -/
theorem c4_leak_counterexample :
    "/tmp/t2.png" ∈
      (handle_file ⟨false, false, false, false, false, []⟩
        ⟨0, true, 1, false, 0, true, 100, 50, "/tmp/t2.png"⟩ "c.webp" "/d"
        ⟨["/d/c.webp"], 0, 0, []⟩).1.fs ∧
    Event.dwebpCall (pathJoin "/d" "c.webp") "/tmp/t2.png" ∈
      (handle_file ⟨false, false, false, false, false, []⟩
        ⟨0, true, 1, false, 0, true, 100, 50, "/tmp/t2.png"⟩ "c.webp" "/d"
        ⟨["/d/c.webp"], 0, 0, []⟩).1.events ∧
    (handle_file ⟨false, false, false, false, false, []⟩
        ⟨0, true, 1, false, 0, true, 100, 50, "/tmp/t2.png"⟩ "c.webp" "/d"
        ⟨["/d/c.webp"], 0, 0, []⟩).2 = some Exc.calledProcess := by
  decide

/-- C4 amended: for a WebP whose decode succeeds, as long as no exception is
raised between decode and cleanup (i.e. `lossywebp` is set or the `webpinfo`
inspection exits zero), the temporary intermediate is absent from the final
filesystem on both the conversion-success and the conversion-failure path:
either `convert` itself removed it (delete mode) or the cleanup did. -/
theorem c4_intermediate_always_removed (cfg : Config) (o : ExtOracle)
    (filename root : String) (s0 : St)
    (hext : pyExtension filename = "webp")
    (hsrc : pathJoin root filename ∈ s0.fs)
    (hskip : cfg.force_overwrite = true ∨ jxlTargetPath root filename ∉ s0.fs)
    (hdec : o.dwebpExit = 0) (hprod : o.dwebpProduced = true)
    (hinfo : cfg.lossywebp = true ∨ o.webpinfoExit = 0)
    (hfresh : o.tempName ∉ s0.fs)
    (hne : o.tempName ≠ jxlTargetPath root filename) :
    o.tempName ∉ (handle_file cfg o filename root s0).1.fs := by
  rw [handle_file_webp cfg o filename root s0 hext hsrc hskip hdec hprod]
  have hcnt : (afterDecodeSt o (pathJoin root filename) s0).fs.count o.tempName = 1 := by
    simp [afterDecodeSt, List.count_eq_zero.mpr hfresh]
  by_cases hl : cfg.lossywebp
  · rw [if_pos hl]
    exact convertAndRecord_removes_temp _ _ _ _ _ _ _ _ hcnt hne
  · have hw : o.webpinfoExit = 0 := by
      rcases hinfo with h | h
      · exact absurd h hl
      · exact h
    rw [if_neg hl, if_pos hw]
    have hcnt2 : (afterInfoSt o (pathJoin root filename) s0).fs.count o.tempName = 1 := by
      simpa [afterInfoSt] using hcnt
    exact convertAndRecord_removes_temp _ _ _ _ _ _ _ _ hcnt2 hne

/-- C4 witness: a decoded WebP whose conversion succeeds leaves no temporary
behind. -/
theorem c4_cleanup_witness :
    "/tmp/w4.png" ∉
      (handle_file ⟨false, false, false, false, false, []⟩
        ⟨0, true, 0, true, 0, true, 100, 50, "/tmp/w4.png"⟩ "d.webp" "/d"
        ⟨["/d/d.webp"], 0, 0, []⟩).1.fs :=
  c4_intermediate_always_removed _ _ _ _ _ (by decide) (by decide) (Or.inr (by decide))
    rfl rfl (Or.inr rfl) (by decide) (by decide)

/-- C7: given an existing source file, each adapter returns its output path
exactly when the subprocess exit code is zero and the expected output exists
afterward, and in every other case returns `none`; neither raises (the
result is always `Except.ok`). -/
theorem c7_adapter_contract (o : ExtOracle) (extra : List String) (p target webp : String)
    (lossy remove lj : Bool) (s t : St) (hp : p ∈ s.fs) (hw : webp ∈ t.fs) :
    (convert o extra p target lossy remove lj s).2 =
      Except.ok (if o.cjxlExit = 0 ∧ target ∈ (if o.cjxlProduced then target :: s.fs else s.fs)
        then some target else none) ∧
    (convert_webp_to_temporary_png o webp t).2 =
      Except.ok (if o.dwebpExit = 0 ∧
          o.tempName ∈ (if o.dwebpProduced then o.tempName :: t.fs else t.fs)
        then some o.tempName else none) :=
  ⟨convert_contract o extra p target lossy remove lj s hp, decode_contract o webp t hw⟩

/-- C7 witness: both adapters report failure as `Except.ok none` — not an
exception — when their subprocesses exit nonzero without producing output. -/
theorem c7_adapter_witness :
    (convert ⟨1, false, 0, false, 2, false, 0, 0, "/t7"⟩ [] "a" "b" false false false
        ⟨["a", "w"], 0, 0, []⟩).2 = Except.ok none ∧
    (convert_webp_to_temporary_png ⟨1, false, 0, false, 2, false, 0, 0, "/t7"⟩ "w"
        ⟨["a", "w"], 0, 0, []⟩).2 = Except.ok none := by
  have h := c7_adapter_contract ⟨1, false, 0, false, 2, false, 0, 0, "/t7"⟩ [] "a" "b" "w"
    false false false ⟨["a", "w"], 0, 0, []⟩ ⟨["a", "w"], 0, 0, []⟩ (by decide) (by decide)
  refine ⟨?_, ?_⟩
  · rw [h.1]; simp
  · rw [h.2]; simp

/-- C8: the task boundary `try_handle_file` converts any exception from the
per-file pipeline into a log line naming the file path, leaving filesystem
and statistics exactly as the pipeline left them, and returns normally on
every input (its result type carries no exception), so no file's failure
propagates out of its task. -/
theorem c8_task_boundary (cfg : Config) (o : ExtOracle) (filename root : String) (s0 : St) :
    (try_handle_file cfg o filename root s0).fs = (handle_file cfg o filename root s0).1.fs ∧
    (try_handle_file cfg o filename root s0).before =
      (handle_file cfg o filename root s0).1.before ∧
    (try_handle_file cfg o filename root s0).after =
      (handle_file cfg o filename root s0).1.after ∧
    ((handle_file cfg o filename root s0).2 = none →
      try_handle_file cfg o filename root s0 = (handle_file cfg o filename root s0).1) ∧
    (∀ e : Exc, (handle_file cfg o filename root s0).2 = some e →
      (try_handle_file cfg o filename root s0).events =
        Event.log ("Error processing " ++ pathJoin root filename ++ ": " ++ excRepr e) ::
          (handle_file cfg o filename root s0).1.events) := by
  rcases h : handle_file cfg o filename root s0 with ⟨s, r⟩
  cases r <;> simp [try_handle_file, h]

/-- C8 witness: a pipeline exception (missing source file) is caught and
logged with the file path by the task boundary. -/
theorem c8_boundary_witness :
    (handle_file ⟨false, false, false, false, false, []⟩
        ⟨0, false, 0, false, 0, false, 0, 0, "/t8"⟩ "a.png" "/d" ⟨[], 0, 0, []⟩).2 =
      some (Exc.fileNotFound (pathJoin "/d" "a.png")) ∧
    (try_handle_file ⟨false, false, false, false, false, []⟩
        ⟨0, false, 0, false, 0, false, 0, 0, "/t8"⟩ "a.png" "/d" ⟨[], 0, 0, []⟩).events =
      Event.log ("Error processing " ++ pathJoin "/d" "a.png" ++ ": " ++
          excRepr (Exc.fileNotFound (pathJoin "/d" "a.png"))) ::
        (handle_file ⟨false, false, false, false, false, []⟩
          ⟨0, false, 0, false, 0, false, 0, 0, "/t8"⟩ "a.png" "/d" ⟨[], 0, 0, []⟩).1.events :=
  ⟨by decide,
    (c8_task_boundary _ _ _ _ _).2.2.2.2 (Exc.fileNotFound (pathJoin "/d" "a.png")) (by decide)⟩

/-- C10 witness: the file literally named `png` in directory `/d`. -/
theorem c10_dotless_witness :
    '.' ∉ ("png" : String).data ∧
    pyExtension "png" = pyLower "png" ∧
    pyBaseName "png" = "" ∧
    jxlTargetPath "/d" "png" = pathJoin "/d" "" ++ ".jxl" :=
  ⟨by decide, (c10_dotless_filename "/d" "png" (by decide)).1,
    (c10_dotless_filename "/d" "png" (by decide)).2.1,
    (c10_dotless_filename "/d" "png" (by decide)).2.2.1⟩

end JxlMigrate
